import Mathlib

/-!
Verification development for `foggybot.py` (boston-weather-bot).

The script is a linear pipeline: fetch weather data from api.weather.gov
(three-hop REST chain), compose a prompt, call a generation service, extract
an HTML hex color code from the generated text, and persist one JSON record.

This file gives a shallow embedding of that pipeline:
* JSON values are a Lean inductive type; Python numbers are rationals.
* The network is an explicit environment mapping each URL to an outcome.
* Python exceptions relevant to the script are an enumerated type, and the
  `try`/`except` of `get_weather_data` is modelled with CPython's handler
  semantics (class expressions of `except` clauses are evaluated at match
  time, and a failure while evaluating such an expression propagates).
* The color-code extraction models the Python regex
  `#(?:[0-9a-fA-F]{3}){1,2}\b` (greedy counted repetition: six digits are
  tried before three; `\b` is a word boundary), `str.replace` (all
  non-overlapping occurrences, scanned left to right) and `str.strip`.
-/

/-- JSON values as delivered by the weather API and built by the script.
Numbers are modelled as rationals (exact arithmetic stands in for Python
floats). -/
inductive Json where
  | null
  | bool (b : Bool)
  | num (q : ℚ)
  | str (s : String)
  | arr (elems : List Json)
  | obj (fields : List (String × Json))

/-- The Python exception kinds that can arise in the script. -/
inductive PyExc where
  /-- a transport-level (network) exception raised by `httpx.get` -/
  | transportError
  /-- `httpx.HTTPStatusError` raised by `response.raise_for_status()` -/
  | httpStatusError
  /-- `json.JSONDecodeError` raised by `response.json()` on a non-JSON body -/
  | jsonDecodeError
  /-- `KeyError`: subscripting a dict with a missing key -/
  | keyError
  /-- `IndexError`: subscripting a list out of range -/
  | indexError
  /-- `TypeError`: operating on a value of an unexpected shape -/
  | typeError
  /-- `AttributeError`: a failed attribute lookup (e.g. a missing module
  attribute) -/
  | attributeError
  /-- an exception raised by the generation-service call (`llm`) -/
  | llmError
  deriving DecidableEq, Repr

/-- `d[key]` on a Python dict: the value, `KeyError` when the key is missing,
`TypeError` when the subscripted value is not a dict (the script only ever
uses string subscripts on dicts). -/
def Json.index (j : Json) (key : String) : Except PyExc Json :=
  match j with
  | .obj fields =>
    match fields.lookup key with
    | some v => .ok v
    | none => .error .keyError
  | _ => .error .typeError

/-- `l[i]` on a Python list: the element, `IndexError` out of range,
`TypeError` when the subscripted value is not a list. -/
def Json.item (j : Json) (i : Nat) : Except PyExc Json :=
  match j with
  | .arr elems =>
    match elems[i]? with
    | some v => .ok v
    | none => .error .indexError
  | _ => .error .typeError

/-- Using a JSON value where Python needs a string (URL concatenation,
string `+`): a non-string raises `TypeError`. -/
def Json.asStr : Json → Except PyExc String
  | .str s => .ok s
  | _ => .error .typeError

/-- Using a JSON value where the script needs `None` or a number (the
arguments of the unit-conversion helpers): anything else raises `TypeError`
when arithmetic is attempted on it. -/
def Json.asOptNum : Json → Except PyExc (Option ℚ)
  | .null => .ok none
  | .num q => .ok (some q)
  | _ => .error .typeError

/-- A Python list, `JSONDecodeError`-free: used where the script slices. -/
def Json.asArr : Json → Except PyExc (List Json)
  | .arr elems => .ok elems
  | _ => .error .typeError

/-- Re-embed an optional number (`None` or a float) as a JSON value. -/
def Json.ofOptNum : Option ℚ → Json
  | none => .null
  | some q => .num q

/-- Python truthiness of the values the pipeline tests with `if data:`. -/
def Json.truthy : Json → Bool
  | .null => false
  | .bool b => b
  | .num q => q != 0
  | .str s => s != ""
  | .arr elems => !elems.isEmpty
  | .obj fields => !fields.isEmpty

/-- `_celsius_to_fahrenheit` (foggybot.py lines 122-124):
`None if celsius is None else (celsius * 9 / 5) + 32`. -/
def celsius_to_fahrenheit (celsius : Option ℚ) : Option ℚ :=
  match celsius with
  | none => none
  | some c => some (c * 9 / 5 + 32)

/-- `_ms_to_mph` (foggybot.py lines 126-128):
`None if meters_per_second is None else meters_per_second * 2.237`. -/
def ms_to_mph (meters_per_second : Option ℚ) : Option ℚ :=
  match meters_per_second with
  | none => none
  | some v => some (v * 2.237)

/-! ## The color-code extractor

`re.search(r"#(?:[0-9a-fA-F]{3}){1,2}\b", response)` followed by
`response.replace(color_code, "")` and `response.strip()`
(foggybot.py lines 162-168). Text is modelled as `List Char`. -/

/-- The character class `[0-9a-fA-F]` of the color-code regex. -/
def isHexDigitChar (c : Char) : Bool :=
  ('0' ≤ c && c ≤ '9') || ('a' ≤ c && c ≤ 'f') || ('A' ≤ c && c ≤ 'F')

/-- Python regex word characters (`\w`), restricted to ASCII
(`[0-9a-zA-Z_]`), which is all the `\b` boundary test ever distinguishes
next to a hex digit in this pattern. -/
def isWordChar (c : Char) : Bool :=
  ('0' ≤ c && c ≤ '9') || ('a' ≤ c && c ≤ 'z') || ('A' ≤ c && c ≤ 'Z') || c = '_'

/-- Consume exactly `n` hex digits from the front of `l`, returning the
digits and the remainder. -/
def takeHex : Nat → List Char → Option (List Char × List Char)
  | 0, l => some ([], l)
  | _ + 1, [] => none
  | n + 1, c :: rest =>
    if isHexDigitChar c then
      match takeHex n rest with
      | some (ds, after) => some (c :: ds, after)
      | none => none
    else none

/-- The `\b` test after the final hex digit (a word character): a boundary
holds iff the input ends here or the next character is not a word
character. -/
def boundaryAfter : List Char → Bool
  | [] => true
  | c :: _ => !(isWordChar c)

/-- Try to match exactly `n` hex digits followed by a word boundary. -/
def hexRunAt (n : Nat) (l : List Char) : Option (List Char) :=
  match takeHex n l with
  | some (ds, after) => if boundaryAfter after then some ds else none
  | none => none

/-- Match the pattern `#(?:[0-9a-fA-F]{3}){1,2}\b` anchored at the head of
`l`.  The counted repetition is greedy, so six digits are tried first and
the engine backtracks to three when the six-digit attempt (or its trailing
`\b`) fails. -/
def matchAt (l : List Char) : Option (List Char) :=
  match l with
  | c :: rest =>
    if c = '#' then
      match hexRunAt 6 rest with
      | some ds => some ('#' :: ds)
      | none =>
        match hexRunAt 3 rest with
        | some ds => some ('#' :: ds)
        | none => none
    else none
  | [] => none

/-- `re.search`: scan positions left to right and return the first (leftmost)
match of the pattern. -/
def searchColor : List Char → Option (List Char)
  | [] => none
  | c :: rest =>
    match matchAt (c :: rest) with
    | some m => some m
    | none => searchColor rest

/-- Worker for `removeAll`, structurally recursive on a fuel counter so that
it computes by kernel reduction.  Each step consumes at least one character,
so fuel `l.length` always suffices. -/
def removeAllFuel (pat : List Char) : Nat → List Char → List Char
  | 0, l => l
  | _ + 1, [] => []
  | fuel + 1, c :: rest =>
    if pat ≠ [] ∧ pat.isPrefixOf (c :: rest) then
      removeAllFuel pat fuel ((c :: rest).drop pat.length)
    else
      c :: removeAllFuel pat fuel rest

/-- `text.replace(pat, "")` for a nonempty `pat`: scan left to right,
removing each non-overlapping occurrence and resuming immediately after it;
the output is never rescanned. -/
def removeAll (pat l : List Char) : List Char :=
  removeAllFuel pat l.length l

/-- The whitespace removed by Python `str.strip()` (ASCII part). -/
def isPySpace (c : Char) : Bool :=
  c = ' ' || c = '\t' || c = '\n' || c = '\r' || c = '\x0b' || c = '\x0c'

/-- `text.strip()`: drop whitespace from both ends. -/
def stripEnds (l : List Char) : List Char :=
  ((l.dropWhile isPySpace).reverse.dropWhile isPySpace).reverse

/-- The extraction step of `__main__` (foggybot.py lines 162-168): search for
the first color-code match; if one is found remove every occurrence of the
matched string from the text; finally strip the text.  Returns the cleaned
report text and the color code (or `none`). -/
def extractColor (raw : List Char) : List Char × Option (List Char) :=
  match searchColor raw with
  | some m => (stripEnds (removeAll m raw), some m)
  | none => (stripEnds raw, none)

/-- Whether `pat` occurs as a contiguous substring of `l` (used to state
what the cleaned report text still contains). -/
def hasOccurrence (pat : List Char) : List Char → Bool
  | [] => pat.isEmpty
  | c :: rest => pat.isPrefixOf (c :: rest) || hasOccurrence pat rest

/-! ## The weather client

`WeatherGov.get_weather_data` (foggybot.py lines 36-120).  The network is an
explicit environment: each URL is mapped to what the pair
`httpx.get` / `raise_for_status` / `.json()` does for it. -/

/-- What a `httpx.get(url)` + `raise_for_status()` + `.json()` sequence
yields for one URL. -/
inductive FetchResult where
  /-- `httpx.get` raises a transport-level (network) exception -/
  | transportFail
  /-- the response carries an HTTP error status: `raise_for_status()` raises
  `httpx.HTTPStatusError` -/
  | httpError
  /-- the body is not JSON: `.json()` raises `json.JSONDecodeError` -/
  | badBody
  /-- a successful JSON response -/
  | ok (body : Json)

/-- The network environment of one run. -/
abbrev HttpEnv := String → FetchResult

/-- One GET of the client: fetch `url`, raise for status, decode JSON
(foggybot.py lines 50-53 and the analogous later calls). -/
def getJson (env : HttpEnv) (url : String) : Except PyExc Json :=
  match env url with
  | .transportFail => .error .transportError
  | .httpError => .error .httpStatusError
  | .badBody => .error .jsonDecodeError
  | .ok body => .ok body

/-- `self.base_url` (foggybot.py line 30). -/
def baseUrl : String := "https://api.weather.gov"

/-- `f"{self.base_url}/points/{latitude},{longitude}"` (line 49).  Python
float formatting is abstracted by `fmt`. -/
def pointUrl (fmt : ℚ → String) (latitude longitude : ℚ) : String :=
  baseUrl ++ "/points/" ++ fmt latitude ++ "," ++ fmt longitude

/-- The `try` block of `get_weather_data` (foggybot.py lines 47-113): the
three-hop fetch chain and the construction of the `weather_data` dict, with
every subscript, string use and conversion in source order.  An exception
raised anywhere aborts the block with that exception. -/
def fetchTry (env : HttpEnv) (fmt : ℚ → String) (latitude longitude : ℚ) :
    Except PyExc Json := do
  let point_data ← getJson env (pointUrl fmt latitude longitude)
  let props ← point_data.index "properties"
  let forecast_url ← (← props.index "forecast").asStr
  let station_url ← (← props.index "observationStations").asStr
  let forecast_data ← getJson env forecast_url
  let stations_data ← getJson env station_url
  let firstFeature ← (← stations_data.index "features").item 0
  let stationId ← (← firstFeature.index "id").asStr
  let nearest_station_url := stationId ++ "/observations/latest"
  let observation_data ← getJson env nearest_station_url
  let relProps ← (← props.index "relativeLocation").index "properties"
  let city ← relProps.index "city"
  let state ← relProps.index "state"
  let obsProps ← observation_data.index "properties"
  let timestamp ← obsProps.index "timestamp"
  let temperature_f := Json.ofOptNum (celsius_to_fahrenheit
    (← (← (← obsProps.index "temperature").index "value").asOptNum))
  let temperature_c ← (← obsProps.index "temperature").index "value"
  let humidity ← (← obsProps.index "relativeHumidity").index "value"
  let wind_speed_mph := Json.ofOptNum (ms_to_mph
    (← (← (← obsProps.index "windSpeed").index "value").asOptNum))
  let wind_direction ← (← obsProps.index "windDirection").index "value"
  let description ← obsProps.index "textDescription"
  let periods ← (← (← forecast_data.index "properties").index "periods").asArr
  return Json.obj [
    ("location", Json.obj [
      ("name", city),
      ("state", state),
      ("latitude", Json.num latitude),
      ("longitude", Json.num longitude)]),
    ("current_conditions", Json.obj [
      ("timestamp", timestamp),
      ("temperature_f", temperature_f),
      ("temperature_c", temperature_c),
      ("humidity", humidity),
      ("wind_speed_mph", wind_speed_mph),
      ("wind_direction", wind_direction),
      ("description", description)]),
    ("forecast", Json.arr (periods.take 2))]

/-- How `get_weather_data` ends. -/
inductive FetchOutcome where
  /-- the `weather_data` dict is returned normally -/
  | value (weatherData : Json)
  /-- an `except` clause matched: the error is printed and `None` returned -/
  | noneReturn (e : PyExc)
  /-- an exception escaped `get_weather_data` -/
  | raised (e : PyExc)

/-- Resolving the class expression of the first `except` clause,
`httpx.exceptions.RequestException` (foggybot.py line 115).  The `httpx`
module has no attribute `exceptions` (the `httpx.exceptions` submodule was
removed in httpx 0.14.0, July 2020), and no httpx release ever defined a
class named `RequestException` — that name belongs to the `requests`
library.  So evaluating this expression raises `AttributeError`; on success
it would have yielded a predicate telling which exceptions the clause
catches. -/
def resolveHttpxRequestException : Except PyExc (PyExc → Bool) :=
  .error .attributeError

/-- The classes named by the second `except` clause,
`(KeyError, IndexError, json.JSONDecodeError)` (foggybot.py line 118). -/
def parseHandlerMatches : PyExc → Bool
  | .keyError => true
  | .indexError => true
  | .jsonDecodeError => true
  | _ => false

/-- CPython handler semantics for the two `except` clauses of
`get_weather_data`: when an exception `e` leaves the `try` block, the class
expression of each clause is evaluated in order and tested against `e`; an
exception raised while evaluating a clause expression itself propagates,
abandoning the handler search. -/
def runExceptClauses (e : PyExc) : FetchOutcome :=
  match resolveHttpxRequestException with
  | .error duringClause => .raised duringClause
  | .ok firstMatches =>
    if firstMatches e then .noneReturn e
    else if parseHandlerMatches e then .noneReturn e
    else .raised e

/-- `WeatherGov.get_weather_data` (foggybot.py lines 36-120): run the `try`
block; on an exception, run the `except` clauses. -/
def get_weather_data (env : HttpEnv) (fmt : ℚ → String)
    (latitude longitude : ℚ) : FetchOutcome :=
  match fetchTry env fmt latitude longitude with
  | .ok weatherData => .value weatherData
  | .error e => runExceptClauses e

/-! ## The `__main__` pipeline (foggybot.py lines 131-178) -/

/-- `LAT` (foggybot.py line 22). -/
def LAT : ℚ := 42.287

/-- `LON` (foggybot.py line 23). -/
def LON : ℚ := -71.133

/-- The fixed style-instruction block `PROMPT` (foggybot.py lines 9-19).
Per the spec it is opaque hand-authored configuration; its exact wording is
irrelevant to the pipeline logic, so only its opening line is reproduced
here. -/
def PROMPT : String :=
  "\nReview these two images and assess the weather, looking for where any fog is, the clarity of the day, and more. (fixed style-instruction block)\n"

/-- The two fixed webcam attachments (foggybot.py lines 153-156). -/
def attachmentUrls : List String :=
  ["https://hazecam.net/images/main/bluehill_left.jpg",
   "https://hazecam.net/images/main/bluehill_right.jpg"]

/-- The generation service: `llm.get_model("gpt-4o-mini").prompt(text,
attachments)` followed by `__str__()` (foggybot.py lines 149-160), modelled
as a function from the prompt and attachment URLs to either raw text or an
exception. -/
abbrev GenService := String → List String → Except PyExc String

/-- The forecast-rendering loop (foggybot.py lines 137-141): starting from
the header line, append `"\n - " + period["name"] + ": " +
period["detailedForecast"]` for each period; a missing key or a non-string
value raises. -/
def buildForecasts (periods : List Json) : Except PyExc String :=
  List.foldlM
    (fun acc p => do
      let n ← (← p.index "name").asStr
      let d ← (← p.index "detailedForecast").asStr
      pure (acc ++ "\n - " ++ n ++ ": " ++ d))
    "Below is the weather forecast for Boston, Massachusetts: \n"
    periods

/-- How one run of the script ends with respect to the output file. -/
inductive PipelineOutcome where
  /-- `json.dump(result, f)` ran: the complete record was written to
  `weather_report.json` -/
  | wrote (result : Json)
  /-- `data` was falsy: the `if data:` body was skipped and the run ended
  without touching the output file -/
  | exitedNoWrite
  /-- an uncaught exception terminated the run before any write -/
  | crashed (e : PyExc)

/-- The `__main__` block (foggybot.py lines 131-178): fetch, test `if data:`,
render the forecasts, call the generation service, extract the color code,
assemble `result` and write it.  `local_time` stands for the formatted
`datetime.now(TIMEZONE)` string. -/
def mainPipeline (env : HttpEnv) (fmt : ℚ → String) (gen : GenService)
    (local_time : String) : PipelineOutcome :=
  match get_weather_data env fmt LAT LON with
  | .raised e => .crashed e
  | .noneReturn _ => .exitedNoWrite
  | .value data =>
    if data.truthy then
      match (do
          let ps ← (← data.index "forecast").asArr
          buildForecasts ps : Except PyExc String) with
      | .error e => .crashed e
      | .ok rendered =>
        let forecasts :=
          rendered ++ "\n\nCurrent local time: " ++ local_time ++ PROMPT
        match gen forecasts attachmentUrls with
        | .error e => .crashed e
        | .ok rawResponse =>
          let extracted := extractColor rawResponse.data
          let colorJson : Json :=
            match extracted.2 with
            | some m => .str (String.mk m)
            | none => .null
          .wrote (Json.obj [
            ("forecast_data", data),
            ("weather_report", Json.str (String.mk extracted.1)),
            ("color_code", colorJson),
            ("timestamp", Json.str local_time)])
    else .exitedNoWrite

/-! ## Concrete environments

A family of concrete network environments used to evaluate the client on
explicit inputs: four fixed, pairwise distinct URLs and parameterised
response bodies shaped like the weather.gov payloads. -/

/-- A concrete coordinate formatter (the URL text of a coordinate is
irrelevant to the client logic). -/
def fmt0 : ℚ → String := fun _ => "42.287"

/-- The forecast URL delivered inside the points response. -/
def forecastUrlStd : String := "https://api.weather.gov/gridpoints/BOX/69,76/forecast"

/-- The observation-stations URL delivered inside the points response. -/
def stationUrlStd : String := "https://api.weather.gov/gridpoints/BOX/69,76/stations"

/-- The station id delivered inside the stations response. -/
def stationIdStd : String := "https://api.weather.gov/stations/KBOS"

/-- A points response: forecast URL, stations URL and relative location. -/
def pointBodyStd (cityV stateV : Json) : Json :=
  .obj [("properties", .obj [
    ("forecast", .str forecastUrlStd),
    ("observationStations", .str stationUrlStd),
    ("relativeLocation", .obj [
      ("properties", .obj [("city", cityV), ("state", stateV)])])])]

/-- A forecast response with the given periods list. -/
def forecastBodyStd (periods : List Json) : Json :=
  .obj [("properties", .obj [("periods", .arr periods)])]

/-- A stations response whose feature list holds one station. -/
def stationsBodyStd : Json :=
  .obj [("features", .arr [.obj [("id", .str stationIdStd)]])]

/-- A stations response whose feature list is empty. -/
def stationsBodyEmpty : Json :=
  .obj [("features", .arr [])]

/-- A latest-observation response with the given leaf values. -/
def obsBodyStd (tsV tempV humV wsV wdV descV : Json) : Json :=
  .obj [("properties", .obj [
    ("timestamp", tsV),
    ("temperature", .obj [("value", tempV)]),
    ("relativeHumidity", .obj [("value", humV)]),
    ("windSpeed", .obj [("value", wsV)]),
    ("windDirection", .obj [("value", wdV)]),
    ("textDescription", descV)])]

/-- A latest-observation response whose `properties` dict lacks the
`temperature` key entirely. -/
def obsBodyNoTemp (tsV humV wsV wdV descV : Json) : Json :=
  .obj [("properties", .obj [
    ("timestamp", tsV),
    ("relativeHumidity", .obj [("value", humV)]),
    ("windSpeed", .obj [("value", wsV)]),
    ("windDirection", .obj [("value", wdV)]),
    ("textDescription", descV)])]

/-- An environment serving the four given bodies at the four URLs the client
visits (any other URL fails at the transport level). -/
def mkEnv (pointBody forecastBody stationsBody obsBody : Json) : HttpEnv :=
  fun url =>
    if url = pointUrl fmt0 0 0 then .ok pointBody
    else if url = forecastUrlStd then .ok forecastBody
    else if url = stationUrlStd then .ok stationsBody
    else if url = stationIdStd ++ "/observations/latest" then .ok obsBody
    else .transportFail

/-- Did `get_weather_data` return a dict (as opposed to returning `None` or
raising)? -/
def FetchOutcome.isValue : FetchOutcome → Bool
  | .value _ => true
  | _ => false

/-- Did the run write the output file? -/
def PipelineOutcome.isWrote : PipelineOutcome → Bool
  | .wrote _ => true
  | _ => false

/-! ## Helper lemmas -/

theorem exceptBindOk {ε α β : Type} {x : Except ε α} {f : α → Except ε β}
    {b : β} (h : x >>= f = .ok b) : ∃ a, x = .ok a ∧ f a = .ok b := by
  cases x with
  | ok a => exact ⟨a, rfl, h⟩
  | error e => simp [Bind.bind, Except.bind] at h

theorem asStr_ok {j : Json} {s : String} (h : j.asStr = .ok s) :
    j = .str s := by
  cases j <;> simp_all [Json.asStr]

theorem asArr_ok {j : Json} {l : List Json} (h : j.asArr = .ok l) :
    j = .arr l := by
  cases j <;> simp_all [Json.asArr]

/-- The broken first `except` clause makes the handler search itself raise:
whatever exception leaves the `try` block, `get_weather_data` propagates
`AttributeError` and no clause ever matches. -/
theorem runExceptClauses_eq (e : PyExc) :
    runExceptClauses e = .raised .attributeError := rfl

theorem get_weather_data_value {env : HttpEnv} {fmt : ℚ → String}
    {latitude longitude : ℚ} {j : Json}
    (h : get_weather_data env fmt latitude longitude = .value j) :
    fetchTry env fmt latitude longitude = .ok j := by
  unfold get_weather_data at h
  cases hft : fetchTry env fmt latitude longitude with
  | ok w => rw [hft] at h; cases h; rfl
  | error e =>
    rw [hft] at h
    have h2 : runExceptClauses e = FetchOutcome.value j := h
    rw [runExceptClauses_eq] at h2
    cases h2

/-- Hex digits are word characters, so `\b` fails right after a hex digit
that is followed by another hex digit. -/
theorem isWordChar_of_isHexDigitChar {c : Char} (h : isHexDigitChar c = true) :
    isWordChar c = true := by
  unfold isHexDigitChar at h
  unfold isWordChar
  simp only [Bool.or_eq_true, Bool.and_eq_true, decide_eq_true_eq] at h ⊢
  rcases h with (⟨h1, h2⟩ | ⟨h1, h2⟩) | ⟨h1, h2⟩
  · exact Or.inl (Or.inl (Or.inl ⟨h1, h2⟩))
  · exact Or.inl (Or.inl (Or.inr ⟨h1, le_trans h2 (by decide)⟩))
  · exact Or.inl (Or.inr ⟨h1, le_trans h2 (by decide)⟩)

/-- Hex digits are not `#`. -/
theorem ne_hash_of_isHexDigitChar {c : Char} (h : isHexDigitChar c = true) :
    c ≠ '#' := by
  rintro rfl
  exact absurd h (by decide)

/-- A word boundary implies the next character (if any) is not a hex
digit. -/
theorem not_hex_head_of_boundary {after : List Char}
    (hb : boundaryAfter after = true) :
    after = [] ∨ ∃ c rest, after = c :: rest ∧ isHexDigitChar c = false := by
  cases after with
  | nil => exact Or.inl rfl
  | cons c rest =>
    refine Or.inr ⟨c, rest, rfl, ?_⟩
    have hw : isWordChar c = false := by
      simpa [boundaryAfter] using hb
    cases hh : isHexDigitChar c with
    | false => rfl
    | true => rw [isWordChar_of_isHexDigitChar hh] at hw; cases hw

/-- Running `takeHex` over a block of hex digits followed by anything:
the block is consumed first. -/
theorem takeHex_append :
    ∀ (ds : List Char), ds.all isHexDigitChar = true →
    ∀ (k : Nat) (after : List Char),
      takeHex (ds.length + k) (ds ++ after) =
        Option.map (fun p => (ds ++ p.1, p.2)) (takeHex k after) := by
  intro ds
  induction ds with
  | nil =>
    intro _ k after
    simp only [List.length_nil, Nat.zero_add, List.nil_append]
    cases takeHex k after with
    | none => rfl
    | some p => rfl
  | cons c ds ih =>
    intro hall k after
    simp only [List.all_cons, Bool.and_eq_true] at hall
    have hlen : (c :: ds).length + k = (ds.length + k) + 1 := by
      simp only [List.length_cons]; omega
    rw [hlen, List.cons_append]
    show (if isHexDigitChar c = true then
        match takeHex (ds.length + k) (ds ++ after) with
        | some (ds2, a2) => some (c :: ds2, a2)
        | none => none
      else none) = _
    rw [if_pos hall.1, ih hall.2 k after]
    cases takeHex k after with
    | none => rfl
    | some p => cases p; rfl

/-- Inversion for `takeHex`. -/
theorem takeHex_some :
    ∀ (n : Nat) (l ds after : List Char), takeHex n l = some (ds, after) →
      ds.length = n ∧ ds.all isHexDigitChar = true ∧ l = ds ++ after := by
  intro n
  induction n with
  | zero =>
    intro l ds after h
    obtain ⟨rfl, rfl⟩ : ([] : List Char) = ds ∧ l = after := by
      cases h; exact ⟨rfl, rfl⟩
    exact ⟨rfl, rfl, rfl⟩
  | succ n ih =>
    intro l ds after h
    cases l with
    | nil => cases h
    | cons c rest =>
      simp only [takeHex] at h
      by_cases hc : isHexDigitChar c = true
      · rw [if_pos hc] at h
        cases hre : takeHex n rest with
        | none => rw [hre] at h; cases h
        | some p =>
          rw [hre] at h
          obtain ⟨ds2, after2⟩ := p
          obtain ⟨rfl, rfl⟩ : c :: ds2 = ds ∧ after2 = after := by
            injection h with h2
            injection h2 with h3 h4
            exact ⟨h3, h4⟩
          obtain ⟨hl, ha, rfl⟩ := ih rest ds2 after2 hre
          exact ⟨by simp [hl], by simp [List.all_cons, hc, ha], rfl⟩
      · rw [if_neg hc] at h; cases h

/-- A run of exactly `n` hex digits followed by a word boundary matches. -/
theorem hexRunAt_code {ds after : List Char}
    (hall : ds.all isHexDigitChar = true) (hb : boundaryAfter after = true) :
    hexRunAt ds.length (ds ++ after) = some ds := by
  unfold hexRunAt
  have ht := takeHex_append ds hall 0 after
  rw [Nat.add_zero] at ht
  rw [ht]
  show (if boundaryAfter after = true then some (ds ++ []) else none) = some ds
  rw [if_pos hb, List.append_nil]

/-- When only three hex digits are available before the boundary, the
six-digit attempt fails. -/
theorem hexRunAt_six_of_three {ds after : List Char}
    (hall : ds.all isHexDigitChar = true) (h3 : ds.length = 3)
    (hafter : after = [] ∨ ∃ c rest, after = c :: rest ∧ isHexDigitChar c = false) :
    hexRunAt 6 (ds ++ after) = none := by
  unfold hexRunAt
  have h6 : (6 : Nat) = ds.length + 3 := by omega
  rw [h6, takeHex_append ds hall 3 after]
  have hnone : takeHex 3 after = none := by
    rcases hafter with rfl | ⟨c, rest, rfl, hc⟩
    · rfl
    · show (if isHexDigitChar c = true then _ else none) = none
      rw [if_neg (by simp [hc])]
  rw [hnone]
  rfl

/-- Inversion for `hexRunAt`. -/
theorem hexRunAt_some {n : Nat} {l ds : List Char}
    (h : hexRunAt n l = some ds) :
    ds.length = n ∧ ds.all isHexDigitChar = true ∧
      ∃ after, l = ds ++ after ∧ boundaryAfter after = true := by
  unfold hexRunAt at h
  cases ht : takeHex n l with
  | none => rw [ht] at h; cases h
  | some p =>
    rw [ht] at h
    obtain ⟨ds2, after⟩ := p
    have h' : (if boundaryAfter after = true then some ds2 else none) = some ds := h
    by_cases hb : boundaryAfter after = true
    · rw [if_pos hb] at h'
      obtain rfl : ds2 = ds := by injection h'
      obtain ⟨h1, h2, h3⟩ := takeHex_some n l ds2 after ht
      exact ⟨h1, h2, after, h3, hb⟩
    · rw [if_neg hb] at h'; cases h'

/-- The pattern never matches at a position that does not start with `#`. -/
theorem matchAt_eq_none {c : Char} {rest : List Char} (h : c ≠ '#') :
    matchAt (c :: rest) = none := by
  simp [matchAt, h]

/-- A `#` followed by exactly three or six hex digits and a word boundary
matches, and the match is the `#` with those digits. -/
theorem matchAt_code {ds after : List Char}
    (hall : ds.all isHexDigitChar = true)
    (hlen : ds.length = 3 ∨ ds.length = 6) (hb : boundaryAfter after = true) :
    matchAt ('#' :: (ds ++ after)) = some ('#' :: ds) := by
  have hdef : matchAt ('#' :: (ds ++ after)) =
      (match hexRunAt 6 (ds ++ after) with
        | some x => some ('#' :: x)
        | none =>
          match hexRunAt 3 (ds ++ after) with
          | some x => some ('#' :: x)
          | none => none) := rfl
  rw [hdef]
  rcases hlen with h3 | h6
  · rw [hexRunAt_six_of_three hall h3 (not_hex_head_of_boundary hb)]
    have hr := hexRunAt_code hall hb
    rw [h3] at hr
    rw [hr]
  · have hr := hexRunAt_code hall hb
    rw [h6] at hr
    rw [hr]


/-- Inversion for `matchAt`: any match is a `#` followed by exactly three
or six hex digits, and the input at that position extends the match by a
word boundary. -/
theorem matchAt_some {l m : List Char} (h : matchAt l = some m) :
    ∃ ds after, m = '#' :: ds ∧ ds.all isHexDigitChar = true ∧
      (ds.length = 3 ∨ ds.length = 6) ∧
      l = '#' :: (ds ++ after) ∧ boundaryAfter after = true := by
  cases l with
  | nil => cases h
  | cons c rest =>
    by_cases hc : c = '#'
    · subst hc
      have h' : (match hexRunAt 6 rest with
          | some ds => some ('#' :: ds)
          | none =>
            match hexRunAt 3 rest with
            | some ds => some ('#' :: ds)
            | none => none) = some m := by
        exact h
      cases h6 : hexRunAt 6 rest with
      | some ds =>
        rw [h6] at h'
        obtain rfl : '#' :: ds = m := by injection h'
        obtain ⟨hlen, hhex, after, rfl, hb⟩ := hexRunAt_some h6
        exact ⟨ds, after, rfl, hhex, Or.inr hlen, rfl, hb⟩
      | none =>
        rw [h6] at h'
        cases h3 : hexRunAt 3 rest with
        | some ds =>
          rw [h3] at h'
          obtain rfl : '#' :: ds = m := by injection h'
          obtain ⟨hlen, hhex, after, rfl, hb⟩ := hexRunAt_some h3
          exact ⟨ds, after, rfl, hhex, Or.inl hlen, rfl, hb⟩
        | none => rw [h3] at h'; cases h'
    · rw [matchAt_eq_none hc] at h; cases h

/-- `re.search` returns the match found at the first matching position. -/
theorem searchColor_cons_some {c : Char} {rest m : List Char}
    (h : matchAt (c :: rest) = some m) : searchColor (c :: rest) = some m := by
  simp [searchColor, h]

/-- Scanning past characters that cannot start a match (`#` is required
first) leaves the search result unchanged. -/
theorem searchColor_append :
    ∀ (a : List Char), (∀ x ∈ a, x ≠ '#') →
    ∀ (l : List Char), searchColor (a ++ l) = searchColor l := by
  intro a
  induction a with
  | nil => intro _ l; rfl
  | cons c a ih =>
    intro ha l
    have hc : c ≠ '#' := ha c (List.mem_cons_self c a)
    show (match matchAt (c :: (a ++ l)) with
      | some m => some m
      | none => searchColor (a ++ l)) = searchColor l
    rw [matchAt_eq_none hc]
    exact ih (fun x hx => ha x (List.mem_cons_of_mem _ hx)) l

/-- Any string `re.search` returns matches the hex-color shape: `#` plus
exactly three or six hex digits. -/
theorem searchColor_some :
    ∀ {l m : List Char}, searchColor l = some m →
      ∃ ds, m = '#' :: ds ∧ ds.all isHexDigitChar = true ∧
        (ds.length = 3 ∨ ds.length = 6) := by
  intro l
  induction l with
  | nil => intro m h; cases h
  | cons c rest ih =>
    intro m h
    have h' : (match matchAt (c :: rest) with
        | some m0 => some m0
        | none => searchColor rest) = some m := h
    cases hm : matchAt (c :: rest) with
    | some m0 =>
      rw [hm] at h'
      obtain rfl : m0 = m := by injection h'
      obtain ⟨ds, after, rfl, hhex, hlen, _, _⟩ := matchAt_some hm
      exact ⟨ds, rfl, hhex, hlen⟩
    | none =>
      rw [hm] at h'
      exact ih h'

/-- The fuel argument of `removeAllFuel` is irrelevant once it covers the
input length. -/
theorem removeAllFuel_congr (pat : List Char) :
    ∀ (f1 : Nat), ∀ (l : List Char), ∀ (f2 : Nat),
      l.length ≤ f1 → l.length ≤ f2 →
      removeAllFuel pat f1 l = removeAllFuel pat f2 l := by
  intro f1
  induction f1 with
  | zero =>
    intro l f2 h1 _
    obtain rfl : l = [] := List.eq_nil_of_length_eq_zero (Nat.le_zero.mp h1)
    cases f2 with
    | zero => rfl
    | succ f2 => rfl
  | succ f1 ih =>
    intro l f2 h1 h2
    cases l with
    | nil =>
      cases f2 with
      | zero => rfl
      | succ f2 => rfl
    | cons c rest =>
      cases f2 with
      | zero => exact absurd h2 (by simp)
      | succ f2 =>
        show (if pat ≠ [] ∧ pat.isPrefixOf (c :: rest) then
            removeAllFuel pat f1 ((c :: rest).drop pat.length)
          else c :: removeAllFuel pat f1 rest) =
          (if pat ≠ [] ∧ pat.isPrefixOf (c :: rest) then
            removeAllFuel pat f2 ((c :: rest).drop pat.length)
          else c :: removeAllFuel pat f2 rest)
        by_cases hp : pat ≠ [] ∧ pat.isPrefixOf (c :: rest)
        · rw [if_pos hp, if_pos hp]
          have hlen : ((c :: rest).drop pat.length).length ≤ rest.length := by
            have : 0 < pat.length := List.length_pos.mpr hp.1
            simp only [List.length_drop, List.length_cons]
            omega
          exact ih _ f2 (le_trans hlen (by simpa using h1))
            (le_trans hlen (by simpa using h2))
        · rw [if_neg hp, if_neg hp]
          have h1' : rest.length ≤ f1 := by simpa using h1
          have h2' : rest.length ≤ f2 := by simpa using h2
          rw [ih rest f2 h1' h2']

/-- The natural recursion of `removeAll` on a nonempty pattern. -/
theorem removeAll_cons (pat : List Char) (hp : pat ≠ []) (c : Char)
    (rest : List Char) :
    removeAll pat (c :: rest) =
      if pat.isPrefixOf (c :: rest) then
        removeAll pat ((c :: rest).drop pat.length)
      else c :: removeAll pat rest := by
  show (if pat ≠ [] ∧ pat.isPrefixOf (c :: rest) then
      removeAllFuel pat rest.length ((c :: rest).drop pat.length)
    else c :: removeAllFuel pat rest.length rest) = _
  have hlen : 0 < pat.length := List.length_pos.mpr hp
  by_cases hpre : pat.isPrefixOf (c :: rest) = true
  · rw [if_pos ⟨hp, hpre⟩, if_pos hpre]
    exact removeAllFuel_congr pat rest.length _ _
      (by simp only [List.length_drop, List.length_cons]; omega)
      (le_refl _)
  · rw [if_neg (by simp [hpre]), if_neg hpre]
    rfl

/-- A nonempty list is a prefix (in the `Bool` sense) of itself followed by
anything. -/
theorem isPrefixOf_self_append :
    ∀ (p l : List Char), p.isPrefixOf (p ++ l) = true := by
  intro p
  induction p with
  | nil => intro l; simp [List.isPrefixOf]
  | cons c p ih =>
    intro l
    simp [List.isPrefixOf, ih l]

/-- `removeAll` passes over a stretch of characters that cannot start an
occurrence of the pattern (the pattern begins with `#`). -/
theorem removeAll_pass (t : List Char) :
    ∀ (a : List Char), (∀ x ∈ a, x ≠ '#') →
    ∀ (l : List Char), removeAll ('#' :: t) (a ++ l) = a ++ removeAll ('#' :: t) l := by
  intro a
  induction a with
  | nil => intro _ l; rfl
  | cons c a ih =>
    intro ha l
    have hc : c ≠ '#' := ha c (List.mem_cons_self c a)
    rw [List.cons_append, removeAll_cons _ (by simp) c (a ++ l)]
    have hpre : ('#' :: t).isPrefixOf (c :: (a ++ l)) = false := by
      have hb : ('#' == c) = false := beq_eq_false_iff_ne.mpr (Ne.symm hc)
      simp [List.isPrefixOf, hb]
    rw [if_neg (by simp [hpre])]
    rw [ih (fun x hx => ha x (List.mem_cons_of_mem _ hx)) l]
    simp

/-- `removeAll` removes an occurrence of the pattern sitting at the scan
position and resumes after it. -/
theorem removeAll_head (t l : List Char) :
    removeAll ('#' :: t) (('#' :: t) ++ l) = removeAll ('#' :: t) l := by
  rw [show ('#' :: t) ++ l = '#' :: (t ++ l) from rfl]
  rw [removeAll_cons _ (by simp) '#' (t ++ l)]
  have hpre : ('#' :: t).isPrefixOf ('#' :: (t ++ l)) = true :=
    isPrefixOf_self_append ('#' :: t) l
  rw [if_pos hpre]
  congr 1
  simp only [List.length_cons, List.drop_succ_cons, List.drop_left]

/-- A text with no `#` at all is left unchanged by `removeAll`. -/
theorem removeAll_id (t : List Char) (l : List Char)
    (hl : ∀ x ∈ l, x ≠ '#') : removeAll ('#' :: t) l = l := by
  have h := removeAll_pass t l hl []
  have h0 : removeAll ('#' :: t) ([] : List Char) = [] := rfl
  rw [h0] at h
  simp only [List.append_nil] at h
  exact h

/-- Stripping only removes characters: members of the stripped text are
members of the original. -/
theorem mem_stripEnds {c : Char} {l : List Char} (h : c ∈ stripEnds l) :
    c ∈ l := by
  unfold stripEnds at h
  rw [List.mem_reverse] at h
  have h2 := (List.dropWhile_sublist (l := (l.dropWhile isPySpace).reverse)
    (p := isPySpace)).subset h
  rw [List.mem_reverse] at h2
  exact (List.dropWhile_sublist (l := l) (p := isPySpace)).subset h2

/-- If every `#` in the text begins an occurrence of the pattern
`'#' :: t`, then the scan of `removeAll` removes every `#`: the output has
no `#` at all, and in particular no occurrence of the pattern survives or
is spliced together. -/
theorem removeAll_result_no_hash (t : List Char) :
    ∀ (n : Nat) (l : List Char), l.length ≤ n →
      (∀ i, i < l.length → l[i]? = some '#' →
        ('#' :: t).isPrefixOf (l.drop i) = true) →
      ∀ c ∈ removeAll ('#' :: t) l, c ≠ '#' := by
  intro n
  induction n with
  | zero =>
    intro l hl _ c hc
    obtain rfl : l = [] := List.eq_nil_of_length_eq_zero (Nat.le_zero.mp hl)
    cases hc
  | succ n ih =>
    intro l hl hocc c hc
    cases l with
    | nil => cases hc
    | cons x rest =>
      by_cases hx : x = '#'
      · subst hx
        have hpre : ('#' :: t).isPrefixOf ('#' :: rest) = true := by
          have h0 := hocc 0 (by simp) (by simp)
          simpa using h0
        rw [removeAll_cons _ (by simp) _ _, if_pos hpre] at hc
        set k := ('#' :: t).length with hk
        have hklen : ('#' :: rest).length ≤ n + 1 := hl
        have hkpos : 0 < k := by simp [hk]
        refine ih (('#' :: rest).drop k) ?_ ?_ c hc
        · have : (('#' :: rest).drop k).length = ('#' :: rest).length - k := by
            simp
          rw [this]
          simp only [List.length_cons] at hklen ⊢
          omega
        · intro i hi hsome
          rw [List.getElem?_drop] at hsome
          rw [List.drop_drop]
          have hlt : k + i < ('#' :: rest).length := by
            have := List.getElem?_eq_some.mp hsome
            exact this.1
          exact hocc (k + i) hlt hsome
      · have hpre : ('#' :: t).isPrefixOf (x :: rest) = false := by
          have hb : ('#' == x) = false := beq_eq_false_iff_ne.mpr (Ne.symm hx)
          simp [List.isPrefixOf, hb]
        rw [removeAll_cons _ (by simp) _ _, if_neg (by simp [hpre])] at hc
        rcases List.mem_cons.mp hc with rfl | hc2
        · exact hx
        · refine ih rest (by simpa using Nat.le_of_succ_le_succ hl) ?_ c hc2
          intro i hi hsome
          have := hocc (i + 1) (by simpa using Nat.succ_lt_succ hi)
            (by simpa using hsome)
          simpa using this

/-- A hash-free text contains no occurrence of a pattern that starts with
`#`. -/
theorem hasOccurrence_eq_false {t : List Char} :
    ∀ {l : List Char}, (∀ x ∈ l, x ≠ '#') →
      hasOccurrence ('#' :: t) l = false := by
  intro l
  induction l with
  | nil => intro _; rfl
  | cons c rest ih =>
    intro hl
    have hc : c ≠ '#' := hl c (List.mem_cons_self c rest)
    show (('#' :: t).isPrefixOf (c :: rest) || hasOccurrence ('#' :: t) rest) = false
    have hpre : ('#' :: t).isPrefixOf (c :: rest) = false := by
      have hb : ('#' == c) = false := beq_eq_false_iff_ne.mpr (Ne.symm hc)
      simp [List.isPrefixOf, hb]
    rw [hpre, ih (fun x hx => hl x (List.mem_cons_of_mem _ hx))]
    rfl

/-- One GET inversion: a successful `getJson` means the environment served
a JSON body at that URL. -/
theorem getJson_ok {env : HttpEnv} {url : String} {j : Json}
    (h : getJson env url = .ok j) : env url = .ok j := by
  unfold getJson at h
  cases he : env url with
  | ok b => rw [he] at h; cases h; rfl
  | transportFail => rw [he] at h; cases h
  | httpError => rw [he] at h; cases h
  | badBody => rw [he] at h; cases h

/-- Tracing a successful run of the `try` block: the forecast stored in the
returned dict is `periods[:2]` of whatever periods list the forecast
endpoint (named by the points response) delivered. -/
theorem fetchTry_ok_forecast {env : HttpEnv} {fmt : ℚ → String}
    {latitude longitude : ℚ} {j : Json}
    (h : fetchTry env fmt latitude longitude = .ok j) :
    ∃ (pbody props : Json) (furl : String) (fbody fprops : Json)
      (ps : List Json),
      env (pointUrl fmt latitude longitude) = .ok pbody ∧
      pbody.index "properties" = .ok props ∧
      props.index "forecast" = .ok (.str furl) ∧
      env furl = .ok fbody ∧
      fbody.index "properties" = .ok fprops ∧
      fprops.index "periods" = .ok (.arr ps) ∧
      Json.index j "forecast" = .ok (.arr (ps.take 2)) := by
  unfold fetchTry at h
  obtain ⟨point_data, hpd, h⟩ := exceptBindOk h
  obtain ⟨props, hprops, h⟩ := exceptBindOk h
  obtain ⟨furlJ, hfurlJ, h⟩ := exceptBindOk h
  obtain ⟨forecast_url, hfs, h⟩ := exceptBindOk h
  obtain ⟨surlJ, hsurlJ, h⟩ := exceptBindOk h
  obtain ⟨station_url, hss, h⟩ := exceptBindOk h
  obtain ⟨forecast_data, hfd, h⟩ := exceptBindOk h
  obtain ⟨stations_data, hsd, h⟩ := exceptBindOk h
  obtain ⟨featsJ, hfeats, h⟩ := exceptBindOk h
  obtain ⟨firstFeature, hfirst, h⟩ := exceptBindOk h
  obtain ⟨idJ, hidJ, h⟩ := exceptBindOk h
  obtain ⟨stationId, hsid, h⟩ := exceptBindOk h
  obtain ⟨observation_data, hod, h⟩ := exceptBindOk h
  obtain ⟨relJ, hrelJ, h⟩ := exceptBindOk h
  obtain ⟨relProps, hrelProps, h⟩ := exceptBindOk h
  obtain ⟨city, hcity, h⟩ := exceptBindOk h
  obtain ⟨state, hstate, h⟩ := exceptBindOk h
  obtain ⟨obsProps, hobsProps, h⟩ := exceptBindOk h
  obtain ⟨timestamp, hts, h⟩ := exceptBindOk h
  obtain ⟨tJ, htJ, h⟩ := exceptBindOk h
  obtain ⟨tv, htv, h⟩ := exceptBindOk h
  obtain ⟨tempOpt, htempOpt, h⟩ := exceptBindOk h
  obtain ⟨tJ2, htJ2, h⟩ := exceptBindOk h
  obtain ⟨temperature_c, htc, h⟩ := exceptBindOk h
  obtain ⟨hJ, hhJ, h⟩ := exceptBindOk h
  obtain ⟨humidity, hhum, h⟩ := exceptBindOk h
  obtain ⟨wJ, hwJ, h⟩ := exceptBindOk h
  obtain ⟨wv, hwv, h⟩ := exceptBindOk h
  obtain ⟨wOpt, hwOpt, h⟩ := exceptBindOk h
  obtain ⟨wdJ, hwdJ, h⟩ := exceptBindOk h
  obtain ⟨wind_direction, hwd, h⟩ := exceptBindOk h
  obtain ⟨description, hdesc, h⟩ := exceptBindOk h
  obtain ⟨fpropsJ, hfprops, h⟩ := exceptBindOk h
  obtain ⟨periodsJ, hperiodsJ, h⟩ := exceptBindOk h
  obtain ⟨periods, hperiods, h⟩ := exceptBindOk h
  obtain rfl : Json.obj [
      ("location", Json.obj [
        ("name", city),
        ("state", state),
        ("latitude", Json.num latitude),
        ("longitude", Json.num longitude)]),
      ("current_conditions", Json.obj [
        ("timestamp", timestamp),
        ("temperature_f", Json.ofOptNum (celsius_to_fahrenheit tempOpt)),
        ("temperature_c", temperature_c),
        ("humidity", humidity),
        ("wind_speed_mph", Json.ofOptNum (ms_to_mph wOpt)),
        ("wind_direction", wind_direction),
        ("description", description)]),
      ("forecast", Json.arr (periods.take 2))] = j := by
    injection h
  obtain rfl : furlJ = .str forecast_url := asStr_ok hfs
  obtain rfl : periodsJ = .arr periods := asArr_ok hperiods
  exact ⟨point_data, props, forecast_url, forecast_data, fpropsJ, periods,
    getJson_ok hpd, hprops, hfurlJ, getJson_ok hfd, hfprops, hperiodsJ, rfl⟩

/-! ## Claim theorems -/

/-- C7: the Celsius-to-Fahrenheit helper maps 0 to 32, 100 to 212, an
absent input to an absent output, and every present input c to
(c * 9 / 5) + 32. -/
theorem celsius_conversion_spec :
    celsius_to_fahrenheit (some 0) = some 32 ∧
    celsius_to_fahrenheit (some 100) = some 212 ∧
    celsius_to_fahrenheit none = none ∧
    ∀ c : ℚ, celsius_to_fahrenheit (some c) = some (c * 9 / 5 + 32) := by
  refine ⟨?_, ?_, rfl, fun c => rfl⟩
  · show some ((0 : ℚ) * 9 / 5 + 32) = some 32
    norm_num
  · show some ((100 : ℚ) * 9 / 5 + 32) = some 212
    norm_num

/-- C8: the m/s-to-mph helper maps 1 to 2.237 (within 1e-3), an absent
input to an absent output, and every present input v to v * 2.237. -/
theorem ms_to_mph_spec :
    (∃ r : ℚ, ms_to_mph (some 1) = some r ∧ |r - 2.237| ≤ 1 / 1000) ∧
    ms_to_mph none = none ∧
    ∀ v : ℚ, ms_to_mph (some v) = some (v * 2.237) := by
  refine ⟨⟨2.237, ?_, by norm_num⟩, rfl, fun v => rfl⟩
  show some ((1 : ℚ) * 2.237) = some 2.237
  norm_num

/-- C1 (code bug witnessed): the claim says transport failures, HTTP error
statuses and malformed-response errors are caught inside
`get_weather_data` and turned into a `None` return.  In fact the first
`except` clause names `httpx.exceptions.RequestException`, which does not
resolve, so every exception leaving the `try` block escapes the client as
an `AttributeError` and nothing is ever caught. -/
theorem fetch_errors_escape (env : HttpEnv) (fmt : ℚ → String)
    (latitude longitude : ℚ) (e : PyExc)
    (h : fetchTry env fmt latitude longitude = .error e) :
    get_weather_data env fmt latitude longitude = .raised .attributeError := by
  unfold get_weather_data
  rw [h]
  exact runExceptClauses_eq e

/-- Witness for C1: a network environment in which every request carries an
HTTP error status (category (b)); the `try` block raises
`httpx.HTTPStatusError` at the first hop and `get_weather_data` propagates
`AttributeError` instead of returning `None`. -/
theorem fetch_errors_escape_witness :
    fetchTry (fun _ => .httpError) fmt0 0 0 = .error .httpStatusError ∧
    get_weather_data (fun _ => .httpError) fmt0 0 0 = .raised .attributeError :=
  ⟨rfl, fetch_errors_escape _ _ _ _ _ rfl⟩

/-- C2 counterexample: a latest-observation response whose `properties`
dict lacks the `temperature` key entirely.  The claim says the fetch still
returns a snapshot with that field absent; in fact the subscript raises
`KeyError`, the whole fetch is aborted, and no snapshot is returned (the
abort itself surfaces as the handler `AttributeError`). -/
theorem missing_leaf_key_aborts_fetch :
    get_weather_data
      (mkEnv (pointBodyStd (.str "Milton") (.str "MA"))
        (forecastBodyStd []) stationsBodyStd
        (obsBodyNoTemp (.str "2025-01-01T00:00:00Z") .null .null .null .null))
      fmt0 0 0 = .raised .attributeError ∧
    (get_weather_data
      (mkEnv (pointBodyStd (.str "Milton") (.str "MA"))
        (forecastBodyStd []) stationsBodyStd
        (obsBodyNoTemp (.str "2025-01-01T00:00:00Z") .null .null .null .null))
      fmt0 0 0).isValue = false :=
  ⟨rfl, rfl⟩

/-- C2 amended: a leaf observation field that is present but carries a
null value (`"value": null`, or a null `textDescription`) yields an
explicit absent (null) field in the returned snapshot, for temperature,
humidity, wind speed, wind direction and description alike; a missing key
aborts the fetch instead (see the counterexample). -/
theorem null_leaf_values_give_absent_fields (cityV stateV tsV : Json)
    (periods : List Json) (latitude longitude : ℚ) :
    get_weather_data
      (mkEnv (pointBodyStd cityV stateV) (forecastBodyStd periods)
        stationsBodyStd (obsBodyStd tsV .null .null .null .null .null))
      fmt0 latitude longitude =
    .value (Json.obj [
      ("location", Json.obj [
        ("name", cityV), ("state", stateV),
        ("latitude", .num latitude), ("longitude", .num longitude)]),
      ("current_conditions", Json.obj [
        ("timestamp", tsV),
        ("temperature_f", .null),
        ("temperature_c", .null),
        ("humidity", .null),
        ("wind_speed_mph", .null),
        ("wind_direction", .null),
        ("description", .null)]),
      ("forecast", Json.arr (periods.take 2))]) := rfl

/-- C4: when the weather fetch does not produce a dict, the pipeline never
reaches the generation call (its outcome is the same for every generation
service) and nothing is written to the output file: either a complete
record is written or nothing is. -/
theorem pipeline_fetch_failure_writes_nothing (env : HttpEnv)
    (fmt : ℚ → String) (gen gen' : GenService) (local_time : String)
    (h : (get_weather_data env fmt LAT LON).isValue = false) :
    (mainPipeline env fmt gen local_time).isWrote = false ∧
    mainPipeline env fmt gen local_time =
      mainPipeline env fmt gen' local_time := by
  unfold mainPipeline
  cases hg : get_weather_data env fmt LAT LON with
  | value j => rw [hg] at h; simp [FetchOutcome.isValue] at h
  | noneReturn e => exact ⟨rfl, rfl⟩
  | raised e => exact ⟨rfl, rfl⟩

/-- Witness for C4: the observation-station feature list is empty, the
fetch fails (`IndexError` inside the `try` block), and the pipeline
outcome carries no written record and is independent of the generation
service. -/
theorem pipeline_fetch_failure_writes_nothing_witness :
    (get_weather_data
      (mkEnv (pointBodyStd (.str "Milton") (.str "MA")) (forecastBodyStd [])
        stationsBodyEmpty (obsBodyStd .null .null .null .null .null .null))
      fmt0 LAT LON).isValue = false ∧
    (mainPipeline
      (mkEnv (pointBodyStd (.str "Milton") (.str "MA")) (forecastBodyStd [])
        stationsBodyEmpty (obsBodyStd .null .null .null .null .null .null))
      fmt0 (fun _ _ => .ok "cloudy #abc") "2025-01-01 09:00:00").isWrote = false ∧
    mainPipeline
      (mkEnv (pointBodyStd (.str "Milton") (.str "MA")) (forecastBodyStd [])
        stationsBodyEmpty (obsBodyStd .null .null .null .null .null .null))
      fmt0 (fun _ _ => .ok "cloudy #abc") "2025-01-01 09:00:00" =
    mainPipeline
      (mkEnv (pointBodyStd (.str "Milton") (.str "MA")) (forecastBodyStd [])
        stationsBodyEmpty (obsBodyStd .null .null .null .null .null .null))
      fmt0 (fun _ _ => .error .llmError) "2025-01-01 09:00:00" :=
  ⟨rfl, pipeline_fetch_failure_writes_nothing _ _ _ _ _ rfl⟩

/-- C5: every successful fetch returns a dict whose forecast entry is
`periods[:2]` of the upstream forecast response named by the points
response: at most two periods, and exactly the first (at most two) of the
upstream list, in order. -/
theorem forecast_is_first_two_periods (env : HttpEnv) (fmt : ℚ → String)
    (latitude longitude : ℚ) (j : Json)
    (h : get_weather_data env fmt latitude longitude = .value j) :
    ∃ (pbody props : Json) (furl : String) (fbody fprops : Json)
      (ps : List Json),
      env (pointUrl fmt latitude longitude) = .ok pbody ∧
      pbody.index "properties" = .ok props ∧
      props.index "forecast" = .ok (.str furl) ∧
      env furl = .ok fbody ∧
      fbody.index "properties" = .ok fprops ∧
      fprops.index "periods" = .ok (.arr ps) ∧
      Json.index j "forecast" = .ok (.arr (ps.take 2)) ∧
      (ps.take 2).length ≤ 2 := by
  obtain ⟨pbody, props, furl, fbody, fprops, ps, h1, h2, h3, h4, h5, h6, h7⟩ :=
    fetchTry_ok_forecast (get_weather_data_value h)
  refine ⟨pbody, props, furl, fbody, fprops, ps, h1, h2, h3, h4, h5, h6, h7, ?_⟩
  rw [List.length_take]
  exact min_le_left _ _

/-- Witness for C5: a forecast response with three periods; the returned
dict keeps exactly the first two. -/
theorem forecast_is_first_two_periods_witness :
    get_weather_data
      (mkEnv (pointBodyStd (.str "Milton") (.str "MA"))
        (forecastBodyStd [.str "pA", .str "pB", .str "pC"]) stationsBodyStd
        (obsBodyStd .null .null .null .null .null .null))
      fmt0 0 0 =
      .value (Json.obj [
        ("location", Json.obj [
          ("name", .str "Milton"), ("state", .str "MA"),
          ("latitude", .num 0), ("longitude", .num 0)]),
        ("current_conditions", Json.obj [
          ("timestamp", .null),
          ("temperature_f", .null),
          ("temperature_c", .null),
          ("humidity", .null),
          ("wind_speed_mph", .null),
          ("wind_direction", .null),
          ("description", .null)]),
        ("forecast", Json.arr [.str "pA", .str "pB"])]) ∧
    (∃ (pbody props : Json) (furl : String) (fbody fprops : Json)
      (ps : List Json),
      (mkEnv (pointBodyStd (.str "Milton") (.str "MA"))
        (forecastBodyStd [.str "pA", .str "pB", .str "pC"]) stationsBodyStd
        (obsBodyStd .null .null .null .null .null .null))
        (pointUrl fmt0 0 0) = .ok pbody ∧
      pbody.index "properties" = .ok props ∧
      props.index "forecast" = .ok (.str furl) ∧
      (mkEnv (pointBodyStd (.str "Milton") (.str "MA"))
        (forecastBodyStd [.str "pA", .str "pB", .str "pC"]) stationsBodyStd
        (obsBodyStd .null .null .null .null .null .null)) furl = .ok fbody ∧
      fbody.index "properties" = .ok fprops ∧
      fprops.index "periods" = .ok (.arr ps) ∧
      Json.index (Json.obj [
        ("location", Json.obj [
          ("name", .str "Milton"), ("state", .str "MA"),
          ("latitude", .num 0), ("longitude", .num 0)]),
        ("current_conditions", Json.obj [
          ("timestamp", .null),
          ("temperature_f", .null),
          ("temperature_c", .null),
          ("humidity", .null),
          ("wind_speed_mph", .null),
          ("wind_direction", .null),
          ("description", .null)]),
        ("forecast", Json.arr [.str "pA", .str "pB"])]) "forecast" =
        .ok (.arr (ps.take 2)) ∧
      (ps.take 2).length ≤ 2) :=
  ⟨rfl, forecast_is_first_two_periods _ _ _ _ _ rfl⟩

/-- C6: whenever the extractor reports a color code, that code is a `#`
followed by exactly three or exactly six hex digits. -/
theorem extracted_color_code_shape (raw cleaned m : List Char)
    (h : extractColor raw = (cleaned, some m)) :
    ∃ ds, m = '#' :: ds ∧ ds.all isHexDigitChar = true ∧
      (ds.length = 3 ∨ ds.length = 6) := by
  unfold extractColor at h
  cases hs : searchColor raw with
  | none =>
    rw [hs] at h
    injection h with h1 h2
    cases h2
  | some m0 =>
    rw [hs] at h
    injection h with h1 h2
    obtain rfl : m0 = m := by injection h2
    exact searchColor_some hs

/-- Witness for C6: a concrete report with a six-digit code. -/
theorem extracted_color_code_shape_witness :
    extractColor "The sky over Boston. #1E90FF".data =
      ("The sky over Boston.".data, some "#1E90FF".data) ∧
    ∃ ds, "#1E90FF".data = '#' :: ds ∧ ds.all isHexDigitChar = true ∧
      (ds.length = 3 ∨ ds.length = 6) :=
  ⟨by decide,
    extracted_color_code_shape "The sky over Boston. #1E90FF".data
      "The sky over Boston.".data "#1E90FF".data (by decide)⟩

/-- `takeHex` fails immediately when at least one digit is required but the
next character (if any) is not a hex digit. -/
theorem takeHex_pos_none {rest : List Char}
    (hmax : rest.head?.all (fun c => !isHexDigitChar c) = true) :
    ∀ k, takeHex (k + 1) rest = none := by
  intro k
  cases rest with
  | nil => rfl
  | cons c r =>
    have hc : isHexDigitChar c = false := by simpa using hmax
    show (if isHexDigitChar c = true then _ else none) = none
    rw [if_neg (by simp [hc])]

/-- No `\b` directly after a hex digit. -/
theorem boundaryAfter_hex_head {c : Char} {r : List Char}
    (h : isHexDigitChar c = true) : boundaryAfter (c :: r) = false := by
  show (!(isWordChar c)) = false
  rw [isWordChar_of_isHexDigitChar h]
  rfl

/-- An exact-length hex run whose trailing boundary test fails does not
match. -/
theorem hexRunAt_full_none {ds after : List Char}
    (hall : ds.all isHexDigitChar = true) (hb : boundaryAfter after = false) :
    hexRunAt ds.length (ds ++ after) = none := by
  unfold hexRunAt
  have ht := takeHex_append ds hall 0 after
  rw [Nat.add_zero] at ht
  rw [ht]
  show (if boundaryAfter after = true then some (ds ++ []) else none) = none
  rw [if_neg (by simp [hb])]

/-- Asking for more digits than the run provides fails when the text after
the run does not continue with a hex digit. -/
theorem hexRunAt_over_none (k : Nat) {ds after : List Char}
    (hall : ds.all isHexDigitChar = true)
    (hmax : after.head?.all (fun c => !isHexDigitChar c) = true) :
    hexRunAt (ds.length + (k + 1)) (ds ++ after) = none := by
  unfold hexRunAt
  rw [takeHex_append ds hall (k + 1) after, takeHex_pos_none hmax k]
  rfl

/-- The three-digit backtrack fails inside a hex run of length at least
four: the fourth digit sits right after the would-be match, so `\b`
fails. -/
theorem hexRunAt_three_long {run rest : List Char}
    (hall : run.all isHexDigitChar = true) (hlen : 4 ≤ run.length) :
    hexRunAt 3 (run ++ rest) = none := by
  have hsplit : run.take 3 ++ run.drop 3 = run := List.take_append_drop 3 run
  cases hd : run.drop 3 with
  | nil =>
    have hcon := congrArg List.length hd
    simp only [List.length_drop, List.length_nil] at hcon
    omega
  | cons d bs =>
    have hdmem : d ∈ run := by
      have hmem : d ∈ run.drop 3 := by
        rw [hd]; exact List.mem_cons_self d bs
      exact List.drop_subset 3 run hmem
    have hdhex : isHexDigitChar d = true := by
      rw [List.all_eq_true] at hall
      exact hall d hdmem
    have htake : (run.take 3).all isHexDigitChar = true := by
      rw [List.all_eq_true] at hall ⊢
      exact fun x hx => hall x (List.take_subset 3 run hx)
    have hlen3 : (run.take 3).length = 3 := by
      rw [List.length_take]
      omega
    have heq : run ++ rest = run.take 3 ++ ((d :: bs) ++ rest) := by
      calc run ++ rest = (run.take 3 ++ run.drop 3) ++ rest := by rw [hsplit]
        _ = run.take 3 ++ (run.drop 3 ++ rest) := by rw [List.append_assoc]
        _ = run.take 3 ++ ((d :: bs) ++ rest) := by rw [hd]
    rw [heq]
    have hres : hexRunAt (run.take 3).length
        (run.take 3 ++ ((d :: bs) ++ rest)) = none :=
      hexRunAt_full_none htake (boundaryAfter_hex_head hdhex)
    rw [hlen3] at hres
    exact hres

/-- C10: the trailing word boundary is real.  At a position holding `#`
and a maximal hex run (the following character, if any, is not a hex
digit), there is no match when the run has length four or five, nor when
it has length three or six but is immediately followed by another word
character.  In particular a match is never a three-digit prefix of a
longer alphanumeric run. -/
theorem no_match_on_partial_hex_run (run rest : List Char)
    (hall : run.all isHexDigitChar = true)
    (hmax : rest.head?.all (fun c => !isHexDigitChar c) = true)
    (hshape : (run.length = 4 ∨ run.length = 5) ∨
      ((run.length = 3 ∨ run.length = 6) ∧ rest.head?.any isWordChar = true)) :
    matchAt ('#' :: (run ++ rest)) = none := by
  have hdef : matchAt ('#' :: (run ++ rest)) =
      (match hexRunAt 6 (run ++ rest) with
        | some x => some ('#' :: x)
        | none =>
          match hexRunAt 3 (run ++ rest) with
          | some x => some ('#' :: x)
          | none => none) := rfl
  rw [hdef]
  have hbrest : rest.head?.any isWordChar = true → boundaryAfter rest = false := by
    intro hw
    cases rest with
    | nil => simp [Option.any] at hw
    | cons c r =>
      have : isWordChar c = true := by simpa using hw
      show (!(isWordChar c)) = false
      rw [this]
      rfl
  rcases hshape with (h4 | h5) | ⟨h36, hword⟩
  · have h6 : hexRunAt 6 (run ++ rest) = none := by
      have he : (6 : Nat) = run.length + (1 + 1) := by omega
      rw [he]
      exact hexRunAt_over_none 1 hall hmax
    have h3 : hexRunAt 3 (run ++ rest) = none :=
      hexRunAt_three_long hall (by omega)
    rw [h6, h3]
  · have h6 : hexRunAt 6 (run ++ rest) = none := by
      have he : (6 : Nat) = run.length + (0 + 1) := by omega
      rw [he]
      exact hexRunAt_over_none 0 hall hmax
    have h3 : hexRunAt 3 (run ++ rest) = none :=
      hexRunAt_three_long hall (by omega)
    rw [h6, h3]
  · have hb : boundaryAfter rest = false := hbrest hword
    rcases h36 with h3len | h6len
    · have h6 : hexRunAt 6 (run ++ rest) = none := by
        have he : (6 : Nat) = run.length + (2 + 1) := by omega
        rw [he]
        exact hexRunAt_over_none 2 hall hmax
      have h3 : hexRunAt 3 (run ++ rest) = none := by
        have hres := hexRunAt_full_none hall hb
        rw [h3len] at hres
        exact hres
      rw [h6, h3]
    · have h6 : hexRunAt 6 (run ++ rest) = none := by
        have hres := hexRunAt_full_none hall hb
        rw [h6len] at hres
        exact hres
      have h3 : hexRunAt 3 (run ++ rest) = none :=
        hexRunAt_three_long hall (by omega)
      rw [h6, h3]

/-- Witness for C10: `#abcd` followed by a space has four hex digits and
matches nowhere at that position. -/
theorem no_match_on_partial_hex_run_witness :
    ("abcd".data.all isHexDigitChar = true) ∧
    (" x".data.head?.all (fun c => !isHexDigitChar c) = true) ∧
    matchAt ('#' :: ("abcd".data ++ " x".data)) = none :=
  ⟨by decide, by decide,
    no_match_on_partial_hex_run _ _ (by decide) (by decide)
      (Or.inl (Or.inl (by decide)))⟩

/-- C3 counterexample: a raw output with two (equal) substrings matching
the hex-color pattern.  The claim says only the first occurrence is
removed and the second remains; in fact `str.replace` removes every
occurrence, so the cleaned text contains no occurrence of the code. -/
theorem second_equal_match_also_removed :
    extractColor "x #abc y #abc z".data = ("x  y  z".data, some "#abc".data) ∧
    hasOccurrence "#abc".data "x  y  z".data = false :=
  ⟨by decide, by decide⟩

/-- C3 amended: when a raw output carries two occurrences of a hex code
`#ds` separated and surrounded by non-word, non-`#` characters, the
extractor returns the first match as the color code and removes every
occurrence of exactly that matched string — the second occurrence is
removed as well, leaving only the surrounding text (stripped). -/
theorem first_match_removed_everywhere (a b c ds : List Char)
    (hds : ds.all isHexDigitChar = true)
    (hlen : ds.length = 3 ∨ ds.length = 6)
    (ha : ∀ x ∈ a, isWordChar x = false ∧ x ≠ '#')
    (hb : ∀ x ∈ b, isWordChar x = false ∧ x ≠ '#')
    (hc : ∀ x ∈ c, isWordChar x = false ∧ x ≠ '#') :
    extractColor (a ++ ('#' :: ds) ++ b ++ ('#' :: ds) ++ c) =
      (stripEnds (a ++ b ++ c), some ('#' :: ds)) := by
  have hassoc : a ++ ('#' :: ds) ++ b ++ ('#' :: ds) ++ c =
      a ++ (('#' :: ds) ++ (b ++ (('#' :: ds) ++ c))) := by
    simp [List.append_assoc]
  have hbound : boundaryAfter (b ++ (('#' :: ds) ++ c)) = true := by
    cases b with
    | nil =>
      show (!(isWordChar '#')) = true
      decide
    | cons x xs =>
      show (!(isWordChar x)) = true
      rw [(hb x (List.mem_cons_self x xs)).1]
      rfl
  have hsearch : searchColor (a ++ (('#' :: ds) ++ (b ++ (('#' :: ds) ++ c)))) =
      some ('#' :: ds) := by
    rw [searchColor_append a (fun x hx => (ha x hx).2)]
    exact searchColor_cons_some (matchAt_code hds hlen hbound)
  have hremove : removeAll ('#' :: ds)
      (a ++ (('#' :: ds) ++ (b ++ (('#' :: ds) ++ c)))) = a ++ (b ++ c) := by
    rw [removeAll_pass ds a (fun x hx => (ha x hx).2)]
    rw [removeAll_head ds (b ++ (('#' :: ds) ++ c))]
    rw [removeAll_pass ds b (fun x hx => (hb x hx).2)]
    rw [removeAll_head ds c]
    rw [removeAll_id ds c (fun x hx => (hc x hx).2)]
  rw [hassoc]
  have hext : extractColor (a ++ (('#' :: ds) ++ (b ++ (('#' :: ds) ++ c)))) =
      (stripEnds (removeAll ('#' :: ds)
        (a ++ (('#' :: ds) ++ (b ++ (('#' :: ds) ++ c))))), some ('#' :: ds)) := by
    unfold extractColor
    rw [hsearch]
  rw [hext, hremove, List.append_assoc]

/-- Witness for C3 (amended): two occurrences of `#abc` separated by
spaces; the extractor returns `#abc` and the cleaned text is empty. -/
theorem first_match_removed_everywhere_witness :
    ("abc".data.all isHexDigitChar = true) ∧
    ("abc".data.length = 3 ∨ "abc".data.length = 6) ∧
    (∀ x ∈ " ".data, isWordChar x = false ∧ x ≠ '#') ∧
    extractColor
      (" ".data ++ ('#' :: "abc".data) ++ " ".data ++ ('#' :: "abc".data)
        ++ " ".data) =
      (stripEnds (" ".data ++ " ".data ++ " ".data), some ('#' :: "abc".data)) :=
  ⟨by decide, Or.inl (by decide), by decide,
    first_match_removed_everywhere " ".data " ".data " ".data "abc".data
      (by decide) (Or.inl (by decide)) (by decide) (by decide) (by decide)⟩

/-- C9 counterexample: the removal scans the original text left to right;
removing the two occurrences of `#abc` in `#abc #ab#abcc` splices the
leftover characters ` #ab` and `c` into a fresh `#abc`, so the cleaned
report text still contains the returned color code. -/
theorem cleaned_text_can_contain_code :
    extractColor "#abc #ab#abcc".data = ("#abc".data, some "#abc".data) ∧
    hasOccurrence "#abc".data "#abc".data = true :=
  ⟨by decide, by decide⟩

/-- C9 amended: the extraction removes every left-to-right non-overlapping
occurrence of the matched code, and whenever every `#` of the raw text
begins an occurrence of the code, the cleaned report text contains no
occurrence of the code (without that proviso the removal can splice a
fresh occurrence; see the counterexample). -/
theorem cleaned_has_no_code_when_hashes_align (raw cleaned m : List Char)
    (h : extractColor raw = (cleaned, some m))
    (halign : ∀ i, i < raw.length → raw[i]? = some '#' →
      m.isPrefixOf (raw.drop i) = true) :
    hasOccurrence m cleaned = false := by
  have hsplit : searchColor raw = some m ∧
      cleaned = stripEnds (removeAll m raw) := by
    unfold extractColor at h
    cases hs : searchColor raw with
    | none =>
      rw [hs] at h
      injection h with h1 h2
      cases h2
    | some m0 =>
      rw [hs] at h
      injection h with h1 h2
      obtain rfl : m0 = m := by injection h2
      exact ⟨rfl, h1.symm⟩
  obtain ⟨hsearch, rfl⟩ := hsplit
  obtain ⟨ds, rfl, hhex, hlen⟩ := searchColor_some hsearch
  have hnores : ∀ x ∈ removeAll ('#' :: ds) raw, x ≠ '#' :=
    removeAll_result_no_hash ds raw.length raw (le_refl _) halign
  have hclean : ∀ x ∈ stripEnds (removeAll ('#' :: ds) raw), x ≠ '#' :=
    fun x hx => hnores x (mem_stripEnds hx)
  exact hasOccurrence_eq_false hclean

/-- Witness for C9 (amended): both occurrences of `#0f0` start at the only
two `#` positions, and the cleaned text contains the code nowhere. -/
theorem cleaned_has_no_code_when_hashes_align_witness :
    extractColor "a #0f0 b #0f0".data = ("a  b".data, some "#0f0".data) ∧
    (∀ i, i < "a #0f0 b #0f0".data.length →
      "a #0f0 b #0f0".data[i]? = some '#' →
      "#0f0".data.isPrefixOf ("a #0f0 b #0f0".data.drop i) = true) ∧
    hasOccurrence "#0f0".data "a  b".data = false :=
  ⟨by decide, by decide,
    cleaned_has_no_code_when_hashes_align "a #0f0 b #0f0".data "a  b".data
      "#0f0".data (by decide) (by decide)⟩
